import Mathlib

/-!
Shallow embedding of the game-state core of "Mihran's Tetris Mania"
(`src/App.jsx`): board and piece data model, collision detection, clockwise
rotation with wall-kick search, merge, line clearing, the lock-and-spawn
state machine, scoring, the one-shot lightning bonus, and the best-score
persistence logic.  JavaScript arrays become Lean lists, out-of-range
indexing is made explicit with `getD` defaults, machine numbers that can go
negative (piece anchor coordinates, the `awardedRef` sentinel, scores) are
`Int`, and the two sources of randomness (`Math.random` in `randomPiece` and
`randIcon`) are replaced by an explicit spawn-choice oracle supplied to every
action that spawns a piece.
-/

namespace Tetris

/-- `COLS = 10` from the source. -/
def COLS : Nat := 10

/-- `ROWS = 20` from the source. -/
def ROWS : Nat := 20

/-- A locked board cell: `{ color: piece.color, icon: piece.icons[r][c] }`. -/
structure Cell where
  color : String
  icon : Option String
deriving DecidableEq, Repr

/-- A board is `ROWS` rows of `COLS` cells, each empty (`null`) or locked. -/
abbrev Board := List (List (Option Cell))

/-- Shape bitmasks use Lean `Bool` for the 0/1 entries of the source, whose
collision and merge code only ever tests their truthiness. -/
abbrev Mat := List (List Bool)

/-- Icon matrices: `null` where the bitmask is clear. -/
abbrev IconMat := List (List (Option String))

/-- The active piece: `{ id, key, color, matrix, icons, row, col }`. -/
structure Piece where
  id : Nat
  key : String
  color : String
  matrix : Mat
  icons : IconMat
  row : Int
  col : Int
deriving DecidableEq, Repr

/-- The seven keys of the `SHAPES` table. -/
inductive ShapeKey where
  | I | J | L | O | S | T | Z
deriving DecidableEq, Repr

/-- The string key of a shape, as used by `rotateAction`'s `p.key === "O"`. -/
def keyName : ShapeKey → String
  | .I => "I" | .J => "J" | .L => "L" | .O => "O"
  | .S => "S" | .T => "T" | .Z => "Z"

/-- The `color` entries of the `SHAPES` table. -/
def shapeColor : ShapeKey → String
  | .I => "#00BCD4" | .J => "#3F51B5" | .L => "#FF9800" | .O => "#FFC107"
  | .S => "#4CAF50" | .T => "#9C27B0" | .Z => "#F44336"

/-- The `matrix` entries of the `SHAPES` table. -/
def shapeMatrix : ShapeKey → Mat
  | .I => [[false,false,false,false],[true,true,true,true],
           [false,false,false,false],[false,false,false,false]]
  | .J => [[true,false,false],[true,true,true],[false,false,false]]
  | .L => [[false,false,true],[true,true,true],[false,false,false]]
  | .O => [[true,true],[true,true]]
  | .S => [[false,true,true],[true,true,false],[false,false,false]]
  | .T => [[false,true,false],[true,true,true],[false,false,false]]
  | .Z => [[true,true,false],[false,true,true],[false,false,false]]

/-- `LIGHTNING = "⚡"`. -/
def LIGHTNING : String := "⚡"

/-- Column count of a matrix, the source's ubiquitous `m[0].length`. -/
def colsOf (m : List (List α)) : Nat := (m.headD []).length

/-- `emptyBoard()`: `ROWS` rows of `COLS` nulls. -/
def emptyBoard : Board :=
  List.replicate ROWS (List.replicate COLS none)

/-- Generic clockwise rotation shared by `rotateMatrixCW` and `rotateIconsCW`
(the two source functions are textually identical up to the fill value).  The
source allocates a `cols × rows` result filled with `d` and assigns
`res[c][rows-1-r] = m[r][c]` for every `r < rows`, `c < cols`; as `r` runs over
`[0, rows)` the destination row index `rows-1-r` also runs over all of
`[0, rows)`, so every result cell is written exactly once and the result is
pointwise `res[i][j] = m[rows-1-j][i]`. -/
def rotateCW (d : α) (m : List (List α)) : List (List α) :=
  (List.range (colsOf m)).map fun i =>
    (List.range m.length).map fun j =>
      (m.getD (m.length - 1 - j) []).getD i d

/-- `rotateMatrixCW(m)`. -/
def rotateMatrixCW (m : Mat) : Mat := rotateCW false m

/-- `rotateIconsCW(m)`. -/
def rotateIconsCW (m : IconMat) : IconMat := rotateCW none m

/-- The nondeterministic inputs of one `randomPiece()` call: the shape key
drawn from `ALL_KEYS` and, for each cell position, the icon that `randIcon()`
would return there. -/
structure SpawnChoice where
  key : ShapeKey
  icon : Nat → Nat → String

/-- `randomPiece()`, with `PIECE_SEQ` passed explicitly: the returned piece
gets `id = seq + 1` (the source's `++PIECE_SEQ`), a fresh copy of the shape
matrix, icons exactly on the set cells, `row 0`, and the centered column
`Math.floor((COLS - width) / 2)`. -/
def randomPiece (seq : Nat) (ch : SpawnChoice) : Piece :=
  let matrix := shapeMatrix ch.key
  { id := seq + 1
    key := keyName ch.key
    color := shapeColor ch.key
    matrix := matrix
    icons := matrix.mapIdx fun r row => row.mapIdx fun c v =>
      if v then some (ch.icon r c) else none
    row := 0
    col := ((COLS - colsOf matrix) / 2 : Nat) }

/-- `collides(board, piece, offR, offC, mat)`: some set cell of the (possibly
overridden) matrix, translated by the piece anchor plus the offsets, falls
outside `[0,ROWS) × [0,COLS)` or on an occupied board cell. -/
def collides (board : Board) (piece : Piece) (offR offC : Int)
    (mat : Option Mat) : Bool :=
  let m := mat.getD piece.matrix
  (List.range m.length).any fun r =>
    (List.range (colsOf m)).any fun c =>
      (m.getD r []).getD c false &&
        (let nr := piece.row + r + offR
         let nc := piece.col + c + offC
         decide (nr < 0) || decide ((ROWS : Int) ≤ nr) ||
           decide (nc < 0) || decide ((COLS : Int) ≤ nc) ||
           ((board.getD nr.toNat []).getD nc.toNat none).isSome)

/-- Overwrite one cell of a board (the source's `newBoard[br][bc] = …` on a
row-copied board). -/
def setCell (b : Board) (r c : Nat) (v : Option Cell) : Board :=
  b.set r ((b.getD r []).set c v)

/-- `merge(board, piece)`: write a locked cell carrying the piece color and
the per-cell icon at every set cell that lies inside the board. -/
def merge (board : Board) (piece : Piece) : Board :=
  (List.range piece.matrix.length).foldl (fun nb r =>
    (List.range (colsOf piece.matrix)).foldl (fun nb2 c =>
      if (piece.matrix.getD r []).getD c false then
        let br := piece.row + r
        let bc := piece.col + c
        if 0 ≤ br ∧ br < (ROWS : Int) ∧ 0 ≤ bc ∧ bc < (COLS : Int) then
          setCell nb2 br.toNat bc.toNat
            (some ⟨piece.color, (piece.icons.getD r []).getD c none⟩)
        else nb2
      else nb2) nb) board

/-- `clearLines(board)`: keep the rows having some empty cell, count the
removed ones against the constant `ROWS`, and pad with empty rows on top. -/
def clearLines (board : Board) : Board × Nat :=
  let kept := board.filter fun row => row.any fun cell => cell.isNone
  let cleared := ROWS - kept.length
  (List.replicate cleared (List.replicate COLS none) ++ kept, cleared)

/-- `hasLightningInIcons(icons)`. -/
def hasLightningInIcons (icons : IconMat) : Bool :=
  (List.range icons.length).any fun r =>
    (List.range (colsOf icons)).any fun c =>
      (icons.getD r []).getD c none == some LIGHTNING

/-- `updateHighScore(nextScore)` as a pure function of the current best:
`if (nextScore > high) setHigh(nextScore)` (the best-effort storage write has
no bearing on program state). -/
def updateHighScore (high nextScore : Int) : Int :=
  if nextScore > high then nextScore else high

/-- The whole engine state: React's `board`, `piece`, `score`, `high`,
`gameOver` states plus the `awardedRef` sentinel (initially `-1`) and the
module-level `PIECE_SEQ` counter. -/
structure GState where
  board : Board
  piece : Piece
  score : Int
  high : Int
  over : Bool
  awarded : Int
  seq : Nat

/-- The lightning-award effect (dependency `[piece?.id]`): return if the
active piece's id was already credited, otherwise add the flat `+5` when the
icon matrix contains the lightning icon, and in every case record the id. -/
def awardLightning (s : GState) : GState :=
  if (s.piece.id : Int) = s.awarded then s
  else if hasLightningInIcons s.piece.icons then
    { s with score := s.score + 5
             high := updateHighScore s.high (s.score + 5)
             awarded := (s.piece.id : Int) }
  else { s with awarded := (s.piece.id : Int) }

/-- `lockAndSpawn(currBoard, currPiece)`, sequentialized: merge, clear, add
`cleared` points and raise the best (the source runs both inside the
`setScore` updater), spawn and re-center the next piece; if it collides with
the post-clear board, raise the best from the closure's pre-lock `score`,
keep the post-clear board, set game over and do not install the piece;
otherwise install board and piece.  `PIECE_SEQ` is consumed either way.
The award effect that fires when the installed piece changes the active id is
modelled separately in `lockStep`. -/
def lockAndSpawn (s : GState) (p : Piece) (ch : SpawnChoice) : GState :=
  let merged := merge s.board p
  let cl := clearLines merged
  let score1 := if cl.2 ≠ 0 then s.score + (cl.2 : Int) else s.score
  let high1 := if cl.2 ≠ 0 then updateHighScore s.high (s.score + (cl.2 : Int))
    else s.high
  let next0 := randomPiece s.seq ch
  let next := { next0 with row := 0, col := ((COLS - colsOf next0.matrix) / 2 : Nat) }
  if collides cl.1 next 0 0 none then
    { s with board := cl.1, score := score1,
             high := updateHighScore high1 s.score,
             over := true, seq := s.seq + 1 }
  else
    { s with board := cl.1, piece := next, score := score1, high := high1,
             seq := s.seq + 1 }

/-- `lockAndSpawn` followed by the award effect, which fires exactly when the
active piece's id changed (React effect dependency `[piece?.id]`). -/
def lockStep (s : GState) (p : Piece) (ch : SpawnChoice) : GState :=
  let s1 := lockAndSpawn s p ch
  if s1.piece.id = s.piece.id then s1 else awardLightning s1

/-- `moveLeft()`: shift left when `canMove(0, -1)`. -/
def moveLeft (s : GState) : GState :=
  if !collides s.board s.piece 0 (-1) none then
    { s with piece := { s.piece with col := s.piece.col - 1 } }
  else s

/-- `moveRight()`: shift right when `canMove(0, 1)`. -/
def moveRight (s : GState) : GState :=
  if !collides s.board s.piece 0 1 none then
    { s with piece := { s.piece with col := s.piece.col + 1 } }
  else s

/-- `softDropStep()`: advance one row when free, otherwise lock and spawn
with the current piece and board.  The gravity tick body (lines 300-306) is
the same conditional. -/
def softDropStep (s : GState) (ch : SpawnChoice) : GState :=
  if !collides s.board s.piece 1 0 none then
    { s with piece := { s.piece with row := s.piece.row + 1 } }
  else lockStep s s.piece ch

/-- The wall-kick offsets `[0, 1, -1, 2, -2]`. -/
def kicks : List Int := [0, 1, -1, 2, -2]

/-- `rotateAction()`: no-op for the square piece; otherwise rotate the
bitmask and icon matrix and accept the first kick offset at which the rotated
matrix does not collide, updating matrix, icons and column together; keep the
piece unchanged when every kick collides. -/
def rotateAction (s : GState) : GState :=
  if s.piece.key = "O" then s
  else
    let rotated := rotateMatrixCW s.piece.matrix
    let rotatedIcons := rotateIconsCW s.piece.icons
    match kicks.find? (fun k => !collides s.board s.piece 0 k (some rotated)) with
    | some k =>
        { s with piece := { s.piece with matrix := rotated, icons := rotatedIcons,
                                         col := s.piece.col + k } }
    | none => s

/-- The source's unbounded descent loop `let d = 0; while (!collides(b, p,
d + 1, 0)) d++;`, given explicit fuel.  `dropDist` runs it with `ROWS + 1`
fuel; the termination theorem shows any fuel of at least `ROWS + 1` returns
the same offset whenever the piece is at a non-negative row and its bitmask
has a set cell, which is exactly the loop's termination argument. -/
def dropDistFuel (b : Board) (p : Piece) : Nat → Nat → Nat
  | 0, d => d
  | fuel + 1, d =>
      if collides b p ((d : Int) + 1) 0 none then d
      else dropDistFuel b p fuel (d + 1)

/-- The resting offset computed by `hardDrop()`'s descent loop. -/
def dropDist (b : Board) (p : Piece) : Nat :=
  dropDistFuel b p (ROWS + 1) 0

/-- `hardDrop()`: lock and spawn with the piece moved down by the descent
offset. -/
def hardDrop (s : GState) (ch : SpawnChoice) : GState :=
  let d := dropDist s.board s.piece
  lockStep s { s.piece with row := s.piece.row + (d : Int) } ch

/-- `resetGame()`: fresh empty board and piece, score 0, running status,
`awardedRef` back to `-1`; the best score is kept.  The award effect fires on
the new piece. -/
def resetGame (s : GState) (ch : SpawnChoice) : GState :=
  awardLightning
    { s with board := emptyBoard, piece := randomPiece s.seq ch, score := 0,
             over := false, awarded := -1, seq := s.seq + 1 }

/-- The initial mount: empty board, first `randomPiece()` (consuming the
counter), score 0, loaded best `h0`, running, `awardedRef = -1`, then the
award effect fires for the first piece. -/
def initState (h0 : Int) (ch : SpawnChoice) : GState :=
  awardLightning
    { board := emptyBoard, piece := randomPiece 0 ch, score := 0, high := h0,
      over := false, awarded := -1, seq := 1 }

/-- The input intents reaching the engine.  Keyboard and touch handlers check
`gameOver` before moving/rotating/dropping, and the gravity tick and the
held-button soft-drop timer check `overRef`; the on-screen `◀ ⟳ ▶ ⤓` buttons
(lines 457-467) call the shared actions without that check, so they appear as
separate un-gated intents.  Restart (`R`) is handled before the `gameOver`
check.  Actions that can lock carry the spawn choice for the next piece. -/
inductive Act where
  | left | right | rot
  | soft (ch : SpawnChoice)
  | tick (ch : SpawnChoice)
  | hard (ch : SpawnChoice)
  | btnLeft | btnRight | btnRot
  | btnHard (ch : SpawnChoice)
  | restart (ch : SpawnChoice)

/-- One input or tick applied to the engine state. -/
def applyAct (a : Act) (s : GState) : GState :=
  match a with
  | .left => if s.over then s else moveLeft s
  | .right => if s.over then s else moveRight s
  | .rot => if s.over then s else rotateAction s
  | .soft ch => if s.over then s else softDropStep s ch
  | .tick ch => if s.over then s else softDropStep s ch
  | .hard ch => if s.over then s else hardDrop s ch
  | .btnLeft => moveLeft s
  | .btnRight => moveRight s
  | .btnRot => rotateAction s
  | .btnHard ch => hardDrop s ch
  | .restart ch => resetGame s ch

/-- States reachable from a mount with loaded best `h0` by any sequence of
inputs and ticks. -/
inductive Reachable (h0 : Int) : GState → Prop where
  | init : ∀ ch, Reachable h0 (initState h0 ch)
  | step : ∀ s a, Reachable h0 s → Reachable h0 (applyAct a s)

/-- The condition on which `lockAndSpawn` declares game over: the freshly
spawned, re-centered piece collides with the post-clear board. -/
def spawnCollides (s : GState) (p : Piece) (ch : SpawnChoice) : Bool :=
  let cl := clearLines (merge s.board p)
  let next0 := randomPiece s.seq ch
  collides cl.1 { next0 with row := 0, col := ((COLS - colsOf next0.matrix) / 2 : Nat) }
    0 0 none

/-- The value space of `localStorage.getItem("tetris_highscore")` as the load
initializer sees it: absent (`null`, which `|| 0` turns into 0), a string
that does not parse to a finite number (`Number.isFinite` fails, giving 0),
or a stored integer — `save-best` only ever writes `String(nextScore)` for a
score, so stored numerals are integers. -/
inductive Stored where
  | absent
  | invalid
  | intVal (n : Int)

/-- The `high` state initializer (lines 134-138). -/
def loadBest : Stored → Int
  | .absent => 0
  | .invalid => 0
  | .intVal n => n

/-- Whether a bitmask has a set cell within the range scanned by `collides`. -/
def hasSetCell (m : Mat) : Bool :=
  (List.range m.length).any fun r =>
    (List.range (colsOf m)).any fun c => (m.getD r []).getD c false

/-- Number of set cells of a bitmask within the scanned range. -/
def countSet (m : Mat) : Nat :=
  ∑ r ∈ Finset.range m.length, ∑ c ∈ Finset.range (colsOf m),
    if (m.getD r []).getD c false then 1 else 0

/-- Matrices of exactly `R` rows, each of length `C`. -/
def Rect (R C : Nat) (m : List (List α)) : Prop :=
  m.length = R ∧ ∀ row ∈ m, row.length = C

/-- A concrete 3×3 icon matrix used by witnesses. -/
def sampleIcons : IconMat :=
  [[some "★", none, none], [some "◆", some "●", some "▲"], [none, none, none]]

/-- A 20×10 board whose bottom row is full, used by witnesses. -/
def witBoard : Board :=
  List.replicate 19 (List.replicate 10 none)
    ++ [List.replicate 10 (some ⟨"#abc", some "★"⟩)]

/-- A 20×10 board whose bottom row is occupied except its last cell. -/
def witRowBoard : Board :=
  List.replicate 19 (List.replicate 10 none)
    ++ [List.replicate 9 (some ⟨"#abc", some "★"⟩) ++ [none]]

/-- A one-cell piece sitting over the gap of `witRowBoard`. -/
def witRowPiece : Piece :=
  ⟨1, "X", "#fff", [[true]], [[some "★"]], 19, 9⟩

/-- A game state about to complete the bottom row, used by witnesses. -/
def witRowState : GState :=
  ⟨witRowBoard, witRowPiece, 0, 0, false, -1, 1⟩

/-- A game state whose active piece carries the lightning icon and has not
been credited yet, used by witnesses. -/
def witLightState : GState :=
  ⟨emptyBoard, ⟨1, "T", "#fff", [[true]], [[some LIGHTNING]], 0, 0⟩,
    0, 0, false, -1, 1⟩

/-- A fixed spawn choice used by witnesses. -/
def chDef : SpawnChoice := ⟨ShapeKey.O, fun _ _ => "★"⟩

/-- A spawn choice producing Z pieces with a fixed plain icon. -/
def chZ : SpawnChoice := ⟨ShapeKey.Z, fun _ _ => "★"⟩

/-- A spawn choice producing I pieces with a fixed plain icon. -/
def chI : SpawnChoice := ⟨ShapeKey.I, fun _ _ => "★"⟩

/-- A reachable state built by an explicit input trace: three Z pieces are
hard-dropped (at columns 3, 2 and 1), building a staircase whose left column
has an overhang cell at row 14 with five free rows beneath it; then an I
piece spawns, is rotated to vertical, and is moved against the left wall, so
its cells occupy column 1 above the overhang. -/
def caveState : GState :=
  applyAct .left (applyAct .left (applyAct .left (applyAct .left
    (applyAct .rot (applyAct (.hard chI)
      (applyAct .left (applyAct .left
        (applyAct (.hard chZ) (applyAct .left
          (applyAct (.hard chZ) (initState 0 chZ)))))))))))

/-!
Definitions end here; everything below is lemmas and theorems about them.
-/

lemma getD_eq_getElem' (l : List α) (d : α) {i : Nat} (h : i < l.length) :
    l.getD i d = l[i] := by
  rw [List.getD_eq_getElem?_getD, List.getElem?_eq_getElem h]; rfl

lemma getD_range_map {α : Type _} (f : Nat → α) {n i : Nat} (h : i < n) (d : α) :
    ((List.range n).map f).getD i d = f i := by
  rw [getD_eq_getElem' _ _ (by simpa using h)]
  simp

lemma Rect.colsOf_eq {m : List (List α)} {R C : Nat} (h : Rect R C m) (hR : 0 < R) :
    colsOf m = C := by
  obtain ⟨hlen, hrow⟩ := h
  cases m with
  | nil => simp at hlen; omega
  | cons a t => exact hrow a (by simp)

lemma Rect.getD_length {m : List (List α)} {R C : Nat} (h : Rect R C m) {r : Nat}
    (hr : r < R) : (m.getD r []).length = C := by
  rw [getD_eq_getElem' _ _ (by rw [h.1]; exact hr)]
  exact h.2 _ (List.getElem_mem _)

lemma rotateCW_length (d : α) (m : List (List α)) :
    (rotateCW d m).length = colsOf m := by
  simp [rotateCW]

lemma rotateCW_rect {m : List (List α)} {R C : Nat} (d : α) (h : Rect R C m)
    (hR : 0 < R) : Rect C R (rotateCW d m) := by
  refine ⟨by rw [rotateCW_length, h.colsOf_eq hR], ?_⟩
  intro row hrow
  simp only [rotateCW, List.mem_map, List.mem_range] at hrow
  obtain ⟨i, _, rfl⟩ := hrow
  rw [List.length_map, List.length_range, h.1]

lemma rotateCW_getD (d : α) (m : List (List α)) {i j : Nat} (hi : i < colsOf m)
    (hj : j < m.length) :
    ((rotateCW d m).getD i []).getD j d
      = (m.getD (m.length - 1 - j) []).getD i d := by
  rw [rotateCW, getD_range_map _ hi, getD_range_map _ hj]

lemma rotateCW_entry {m : List (List α)} {R C : Nat} (d : α) (h : Rect R C m)
    (hR : 0 < R) {r c : Nat} (hr : r < R) (hc : c < C) :
    ((rotateCW d m).getD c []).getD (R - 1 - r) d = (m.getD r []).getD c d := by
  rw [rotateCW_getD d m (by rw [h.colsOf_eq hR]; exact hc) (by rw [h.1]; omega)]
  congr 2
  rw [h.1]
  omega

lemma rotateCW_entry' {m : List (List α)} {R C : Nat} (d : α) (h : Rect R C m)
    (hR : 0 < R) {i j : Nat} (hi : i < C) (hj : j < R) :
    ((rotateCW d m).getD i []).getD j d = (m.getD (R - 1 - j) []).getD i d := by
  have := rotateCW_entry d h hR (r := R - 1 - j) (c := i) (by omega) hi
  rwa [show R - 1 - (R - 1 - j) = j by omega] at this

lemma rotateCW_two_entry {m : List (List α)} {R C : Nat} (d : α) (h : Rect R C m)
    (hR : 0 < R) (hC : 0 < C) {i j : Nat} (hi : i < R) (hj : j < C) :
    ((rotateCW d (rotateCW d m)).getD i []).getD j d
      = (m.getD (R - 1 - i) []).getD (C - 1 - j) d := by
  rw [rotateCW_entry' d (rotateCW_rect d h hR) hC hi hj,
      rotateCW_entry' d h hR (by omega) (by omega)]

lemma rect_eq_of_entries {m₁ m₂ : List (List α)} {R C : Nat} (d : α)
    (h₁ : Rect R C m₁) (h₂ : Rect R C m₂)
    (h : ∀ i j, i < R → j < C →
      (m₁.getD i []).getD j d = (m₂.getD i []).getD j d) :
    m₁ = m₂ := by
  apply List.ext_getElem (by rw [h₁.1, h₂.1])
  intro i hi1 hi2
  apply List.ext_getElem
    (by rw [h₁.2 _ (List.getElem_mem hi1), h₂.2 _ (List.getElem_mem hi2)])
  intro j hj1 hj2
  have hiR : i < R := by rw [← h₁.1]; exact hi1
  have hjC : j < C := by rw [← h₁.2 _ (List.getElem_mem hi1)]; exact hj1
  have := h i j hiR hjC
  rwa [getD_eq_getElem' m₁ [] hi1, getD_eq_getElem' m₂ [] hi2,
       getD_eq_getElem' _ d hj1, getD_eq_getElem' _ d hj2] at this

lemma rotateCW_four {m : List (List α)} {R C : Nat} (d : α) (h : Rect R C m)
    (hR : 0 < R) (hC : 0 < C) :
    rotateCW d (rotateCW d (rotateCW d (rotateCW d m))) = m := by
  have h2 : Rect R C (rotateCW d (rotateCW d m)) :=
    rotateCW_rect d (rotateCW_rect d h hR) hC
  apply rect_eq_of_entries d (rotateCW_rect d (rotateCW_rect d h2 hR) hC) h
  intro i j hi hj
  rw [rotateCW_two_entry d h2 hR hC hi hj,
      rotateCW_two_entry d h hR hC (by omega) (by omega)]
  congr 2 <;> omega

/-- C4: one clockwise rotation of a non-empty rectangular `R×C` matrix maps
the source cell `(r, c)` to destination `(c, R−1−r)` and produces a `C×R`
matrix; four rotations give back the original matrix; and the icon-matrix
rotation applies the identical transform to every cell. -/
theorem C4_rotation (m : Mat) (mi : IconMat) (R C : Nat) (hR : 0 < R)
    (hC : 0 < C) (hm : Rect R C m) (hmi : Rect R C mi) :
    ((rotateMatrixCW m).length = C ∧ ∀ row ∈ rotateMatrixCW m, row.length = R)
  ∧ (∀ r c, r < R → c < C →
      ((rotateMatrixCW m).getD c []).getD (R - 1 - r) false
        = (m.getD r []).getD c false)
  ∧ rotateMatrixCW (rotateMatrixCW (rotateMatrixCW (rotateMatrixCW m))) = m
  ∧ (∀ r c, r < R → c < C →
      ((rotateIconsCW mi).getD c []).getD (R - 1 - r) none
        = (mi.getD r []).getD c none)
  ∧ rotateIconsCW (rotateIconsCW (rotateIconsCW (rotateIconsCW mi))) = mi := by
  refine ⟨⟨?_, ?_⟩, ?_, ?_, ?_, ?_⟩
  · exact (rotateCW_rect false hm hR).1
  · exact (rotateCW_rect false hm hR).2
  · intro r c hr hc
    exact rotateCW_entry false hm hR hr hc
  · exact rotateCW_four false hm hR hC
  · intro r c hr hc
    exact rotateCW_entry none hmi hR hr hc
  · exact rotateCW_four none hmi hR hC

/-- Witness for C4 at the J shape and a concrete icon matrix. -/
theorem C4_rotation_witness :
    (0 < 3 ∧ Rect 3 3 (shapeMatrix ShapeKey.J) ∧ Rect 3 3 sampleIcons)
  ∧ rotateMatrixCW (rotateMatrixCW (rotateMatrixCW (rotateMatrixCW
      (shapeMatrix ShapeKey.J)))) = shapeMatrix ShapeKey.J :=
  ⟨⟨by decide, by constructor <;> decide, by constructor <;> decide⟩,
    (C4_rotation (shapeMatrix ShapeKey.J) sampleIcons 3 3 (by decide) (by decide)
      (by constructor <;> decide) (by constructor <;> decide)).2.2.1⟩

lemma any_isNone_eq (row : List (Option Cell)) :
    (row.any fun c => c.isNone) = !(row.all fun c => c.isSome) := by
  induction row with
  | nil => rfl
  | cons a t ih => cases a <;> simp [ih]

/-- C3: on a 20×10 board, `clearLines` removes exactly the rows whose cells
are all occupied, pads with that many empty rows on top, keeps the remaining
rows in order (the filter), returns the number of removed rows, and returns 0
when no row is full. -/
theorem C3_clearLines (b : Board) (h20 : b.length = 20)
    (h10 : ∀ row ∈ b, row.length = 10) :
    (clearLines b).2 = b.countP (fun row => row.all fun c => c.isSome)
  ∧ (clearLines b).1 = List.replicate (clearLines b).2 (List.replicate COLS none)
      ++ b.filter (fun row => !(row.all fun c => c.isSome))
  ∧ (clearLines b).1.length = 20
  ∧ ((∀ row ∈ b, (row.all fun c => c.isSome) = false) →
      (clearLines b).2 = 0) := by
  have hfil : b.filter (fun row => row.any fun c => c.isNone)
      = b.filter (fun row => !(row.all fun c => c.isSome)) := by
    apply List.filter_congr
    intro row _
    exact any_isNone_eq row
  have hsplit := List.length_eq_countP_add_countP
    (fun row : List (Option Cell) => row.all fun c => c.isSome) b
  have hcnt : (b.filter (fun row => !(row.all fun c => c.isSome))).length
      = b.countP (fun row => !(row.all fun c => c.isSome)) :=
    (List.countP_eq_length_filter _ _).symm
  have hcongr : b.countP (fun row => !(row.all fun c => c.isSome))
      = b.countP (fun row => decide ¬((row.all fun c => c.isSome) = true)) := by
    apply List.countP_congr
    intro row _
    simp
  have h2 : (clearLines b).2
      = b.countP (fun row => row.all fun c => c.isSome) := by
    simp only [clearLines, hfil, ROWS]
    omega
  refine ⟨h2, ?_, ?_, ?_⟩
  · simp only [clearLines, hfil]
  · simp only [clearLines, hfil, List.length_append, List.length_replicate,
      hcnt, ROWS]
    omega
  · intro hall
    rw [h2]
    rw [List.countP_eq_zero]
    intro row hrow
    simp [hall row hrow]

/-- Witness for C3 at a board with exactly one full row. -/
theorem C3_clearLines_witness :
    (witBoard.length = 20 ∧ ∀ row ∈ witBoard, row.length = 10)
  ∧ (clearLines witBoard).2
      = witBoard.countP (fun row => row.all fun c => c.isSome) :=
  ⟨⟨by decide, by decide⟩, (C3_clearLines witBoard (by decide) (by decide)).1⟩

lemma listAny_congr {α : Type _} {l : List α} {f g : α → Bool}
    (h : ∀ a ∈ l, f a = g a) : l.any f = l.any g := by
  induction l with
  | nil => rfl
  | cons a t ih =>
      simp only [List.any_cons, h a (by simp)]
      rw [ih fun x hx => h x (by simp [hx])]

lemma collides_subCol (b : Board) (p : Piece) (offR offC : Int) (M : Option Mat) :
    collides b { p with col := p.col - 1 } offR offC M
      = collides b p offR (offC - 1) M := by
  simp only [collides]
  apply listAny_congr
  intro r _
  apply listAny_congr
  intro c _
  have h2 : p.col - 1 + (c : Int) + offC = p.col + c + (offC - 1) := by ring
  rw [h2]

lemma collides_updCol (b : Board) (p : Piece) (dc offR offC : Int) (M : Option Mat) :
    collides b { p with col := p.col + dc } offR offC M
      = collides b p offR (offC + dc) M := by
  simp only [collides]
  apply listAny_congr
  intro r _
  apply listAny_congr
  intro c _
  have h2 : p.col + dc + (c : Int) + offC = p.col + c + (offC + dc) := by ring
  rw [h2]

lemma collides_updRow (b : Board) (p : Piece) (dr offR offC : Int) (M : Option Mat) :
    collides b { p with row := p.row + dr } offR offC M
      = collides b p (offR + dr) offC M := by
  simp only [collides]
  apply listAny_congr
  intro r _
  apply listAny_congr
  intro c _
  have h1 : p.row + dr + (r : Int) + offR = p.row + r + (offR + dr) := by ring
  rw [h1]

lemma collides_updRot (b : Board) (p : Piece) (k : Int) (M : Mat) (I : IconMat) :
    collides b { p with matrix := M, icons := I, col := p.col + k } 0 0 none
      = collides b p 0 k (some M) := by
  simp only [collides, Option.getD_none, Option.getD_some]
  apply listAny_congr
  intro r _
  apply listAny_congr
  intro c _
  have h2 : p.col + k + (c : Int) + 0 = p.col + c + k := by ring
  rw [h2]

lemma collides_irrel (b : Board) (id1 id2 : Nat) (k1 k2 c1 c2 : String)
    (m : Mat) (i1 i2 : IconMat) (row col offR offC : Int) (M : Option Mat) :
    collides b ⟨id1, k1, c1, m, i1, row, col⟩ offR offC M
      = collides b ⟨id2, k2, c2, m, i2, row, col⟩ offR offC M := rfl

lemma awardLightning_fields (s : GState) :
    (awardLightning s).board = s.board ∧ (awardLightning s).piece = s.piece
  ∧ (awardLightning s).over = s.over ∧ (awardLightning s).seq = s.seq := by
  unfold awardLightning
  split
  · exact ⟨rfl, rfl, rfl, rfl⟩
  · split
    · exact ⟨rfl, rfl, rfl, rfl⟩
    · exact ⟨rfl, rfl, rfl, rfl⟩

lemma spawn_no_collide (seq : Nat) (ch : SpawnChoice) :
    collides emptyBoard (randomPiece seq ch) 0 0 none = false := by
  obtain ⟨key, icon⟩ := ch
  have h : randomPiece seq ⟨key, icon⟩ =
      { id := seq + 1, key := keyName key, color := shapeColor key,
        matrix := shapeMatrix key,
        icons := (shapeMatrix key).mapIdx fun r row => row.mapIdx fun c v =>
          if v then some (icon r c) else none,
        row := 0, col := ((COLS - colsOf (shapeMatrix key)) / 2 : Nat) } := rfl
  rw [h, collides_irrel emptyBoard (seq + 1) 0 (keyName key) "" (shapeColor key) ""
    (shapeMatrix key) _ [] 0 _ 0 0 none]
  cases key <;> decide

lemma lockStep_fits (s : GState) (p : Piece) (ch : SpawnChoice) :
    (lockStep s p ch).over = false →
    collides (lockStep s p ch).board (lockStep s p ch).piece 0 0 none = false := by
  simp only [lockStep, lockAndSpawn]
  split
  · split
    · split
      · intro h
        exact absurd h (by simp)
      · rename_i hid
        exact absurd rfl hid
    · split
      · intro h
        exact absurd h (by simp)
      · rename_i hid
        exact absurd rfl hid
  · rename_i hcol
    rw [Bool.not_eq_true] at hcol
    split
    · split
      · intro _
        exact hcol
      · intro _
        rw [(awardLightning_fields _).1, (awardLightning_fields _).2.1]
        exact hcol
    · split
      · intro _
        exact hcol
      · intro _
        rw [(awardLightning_fields _).1, (awardLightning_fields _).2.1]
        exact hcol

lemma moveLeft_fits (s : GState)
    (ih : s.over = false → collides s.board s.piece 0 0 none = false) :
    (moveLeft s).over = false →
    collides (moveLeft s).board (moveLeft s).piece 0 0 none = false := by
  simp only [moveLeft]
  split
  · rename_i hc
    rw [Bool.not_eq_true'] at hc
    intro _
    simp only
    rw [collides_subCol]
    simpa using hc
  · exact ih

lemma moveRight_fits (s : GState)
    (ih : s.over = false → collides s.board s.piece 0 0 none = false) :
    (moveRight s).over = false →
    collides (moveRight s).board (moveRight s).piece 0 0 none = false := by
  simp only [moveRight]
  split
  · rename_i hc
    rw [Bool.not_eq_true'] at hc
    intro _
    simp only
    rw [collides_updCol]
    simpa using hc
  · exact ih

lemma rotateAction_fits (s : GState)
    (ih : s.over = false → collides s.board s.piece 0 0 none = false) :
    (rotateAction s).over = false →
    collides (rotateAction s).board (rotateAction s).piece 0 0 none = false := by
  simp only [rotateAction]
  split
  · exact ih
  · split
    · rename_i k heq
      have hk := List.find?_some heq
      rw [Bool.not_eq_true'] at hk
      intro _
      simp only
      rw [collides_updRot]
      exact hk
    · exact ih

lemma softDropStep_fits (s : GState) (ch : SpawnChoice)
    (ih : s.over = false → collides s.board s.piece 0 0 none = false) :
    (softDropStep s ch).over = false →
    collides (softDropStep s ch).board (softDropStep s ch).piece 0 0 none
      = false := by
  simp only [softDropStep]
  split
  · rename_i hc
    rw [Bool.not_eq_true'] at hc
    intro _
    simp only
    rw [collides_updRow]
    simpa using hc
  · exact lockStep_fits _ _ _

lemma hardDrop_fits (s : GState) (ch : SpawnChoice) :
    (hardDrop s ch).over = false →
    collides (hardDrop s ch).board (hardDrop s ch).piece 0 0 none = false := by
  simp only [hardDrop]
  exact lockStep_fits _ _ _

lemma resetGame_fits (s : GState) (ch : SpawnChoice) :
    collides (resetGame s ch).board (resetGame s ch).piece 0 0 none = false := by
  simp only [resetGame]
  rw [(awardLightning_fields _).1, (awardLightning_fields _).2.1]
  exact spawn_no_collide s.seq ch

/-- C1: in every reachable game state whose status is running — the initial
spawn, spawns after a lock or a restart, and the state after every move,
rotation, soft-drop step or gravity step — the active piece's current
placement does not collide. -/
theorem C1_running_piece_fits (h0 : Int) (s : GState) (hr : Reachable h0 s)
    (hrun : s.over = false) : collides s.board s.piece 0 0 none = false := by
  revert hrun
  induction hr with
  | init ch =>
      intro _
      show collides (initState h0 ch).board (initState h0 ch).piece 0 0 none
        = false
      rw [initState, (awardLightning_fields _).1, (awardLightning_fields _).2.1]
      exact spawn_no_collide 0 ch
  | step s a hr ih =>
      cases a with
      | left =>
          simp only [applyAct]
          split
          · exact ih
          · exact moveLeft_fits s ih
      | right =>
          simp only [applyAct]
          split
          · exact ih
          · exact moveRight_fits s ih
      | rot =>
          simp only [applyAct]
          split
          · exact ih
          · exact rotateAction_fits s ih
      | soft ch =>
          simp only [applyAct]
          split
          · exact ih
          · exact softDropStep_fits s ch ih
      | tick ch =>
          simp only [applyAct]
          split
          · exact ih
          · exact softDropStep_fits s ch ih
      | hard ch =>
          simp only [applyAct]
          split
          · exact ih
          · exact hardDrop_fits s ch
      | btnLeft =>
          simp only [applyAct]
          exact moveLeft_fits s ih
      | btnRight =>
          simp only [applyAct]
          exact moveRight_fits s ih
      | btnRot =>
          simp only [applyAct]
          exact rotateAction_fits s ih
      | btnHard ch =>
          simp only [applyAct]
          exact hardDrop_fits s ch
      | restart ch =>
          simp only [applyAct]
          intro _
          exact resetGame_fits s ch


/-- Witness for C1 at the initial state with a T piece. -/
theorem C1_running_piece_fits_witness :
    Reachable 0 (initState 0 ⟨ShapeKey.T, fun _ _ => "★"⟩)
  ∧ collides (initState 0 ⟨ShapeKey.T, fun _ _ => "★"⟩).board
      (initState 0 ⟨ShapeKey.T, fun _ _ => "★"⟩).piece 0 0 none = false :=
  ⟨Reachable.init _,
    C1_running_piece_fits 0 _ (Reachable.init _) (by decide)⟩

/-- C2: in a running state the rotate action is a no-op for the square (O)
piece; for any other kind it computes the rotated bitmask and icon matrix and
tries the kick offsets `[0, 1, -1, 2, -2]` in that order, accepting the first
non-colliding one (updating matrix, icons and column together) and leaving
the piece unchanged when all five collide. -/
theorem C2_rotate_spec (s : GState) (hrun : s.over = false) :
    (s.piece.key = "O" → rotateAction s = s)
  ∧ (s.piece.key ≠ "O" →
      ((∀ k ∈ kicks, collides s.board s.piece 0 k
          (some (rotateMatrixCW s.piece.matrix)) = true) → rotateAction s = s)
    ∧ (∀ i, i < kicks.length →
        collides s.board s.piece 0 (kicks.getD i 0)
          (some (rotateMatrixCW s.piece.matrix)) = false →
        (∀ j, j < i → collides s.board s.piece 0 (kicks.getD j 0)
          (some (rotateMatrixCW s.piece.matrix)) = true) →
        rotateAction s = { s with piece := { s.piece with
          matrix := rotateMatrixCW s.piece.matrix,
          icons := rotateIconsCW s.piece.icons,
          col := s.piece.col + kicks.getD i 0 } })) := by
  constructor
  · intro hO
    simp [rotateAction, hO]
  · intro hO
    constructor
    · intro hall
      have hf : List.find? (fun k => !collides s.board s.piece 0 k
          (some (rotateMatrixCW s.piece.matrix))) kicks = none := by
        rw [List.find?_eq_none]
        intro k hk
        simp [hall k hk]
      simp only [rotateAction, hf]
      rw [if_neg hO]
    · intro i hi hfound hbefore
      simp only [kicks, List.length_cons, List.length_nil] at hi
      interval_cases i
      · simp only [kicks, List.getD_cons_zero] at hfound ⊢
        have hf : List.find? (fun k => !collides s.board s.piece 0 k
            (some (rotateMatrixCW s.piece.matrix))) kicks = some 0 := by
          rw [kicks, List.find?_cons_of_pos _ (by simp [hfound])]
        simp only [rotateAction, hf]
        rw [if_neg hO]
      · have h0 := hbefore 0 (by omega)
        simp only [kicks, List.getD_cons_zero, List.getD_cons_succ] at hfound h0 ⊢
        have hf : List.find? (fun k => !collides s.board s.piece 0 k
            (some (rotateMatrixCW s.piece.matrix))) kicks = some 1 := by
          rw [kicks, List.find?_cons_of_neg _ (by simp [h0]),
              List.find?_cons_of_pos _ (by simp [hfound])]
        simp only [rotateAction, hf]
        rw [if_neg hO]
      · have h0 := hbefore 0 (by omega)
        have h1 := hbefore 1 (by omega)
        simp only [kicks, List.getD_cons_zero, List.getD_cons_succ] at hfound h0 h1 ⊢
        have hf : List.find? (fun k => !collides s.board s.piece 0 k
            (some (rotateMatrixCW s.piece.matrix))) kicks = some (-1) := by
          rw [kicks, List.find?_cons_of_neg _ (by simp [h0]),
              List.find?_cons_of_neg _ (by simp [h1]),
              List.find?_cons_of_pos _ (by simp [hfound])]
        simp only [rotateAction, hf]
        rw [if_neg hO]
      · have h0 := hbefore 0 (by omega)
        have h1 := hbefore 1 (by omega)
        have h2 := hbefore 2 (by omega)
        simp only [kicks, List.getD_cons_zero, List.getD_cons_succ] at hfound h0 h1 h2 ⊢
        have hf : List.find? (fun k => !collides s.board s.piece 0 k
            (some (rotateMatrixCW s.piece.matrix))) kicks = some 2 := by
          rw [kicks, List.find?_cons_of_neg _ (by simp [h0]),
              List.find?_cons_of_neg _ (by simp [h1]),
              List.find?_cons_of_neg _ (by simp [h2]),
              List.find?_cons_of_pos _ (by simp [hfound])]
        simp only [rotateAction, hf]
        rw [if_neg hO]
      · have h0 := hbefore 0 (by omega)
        have h1 := hbefore 1 (by omega)
        have h2 := hbefore 2 (by omega)
        have h3 := hbefore 3 (by omega)
        simp only [kicks, List.getD_cons_zero, List.getD_cons_succ] at hfound h0 h1 h2 h3 ⊢
        have hf : List.find? (fun k => !collides s.board s.piece 0 k
            (some (rotateMatrixCW s.piece.matrix))) kicks = some (-2) := by
          rw [kicks, List.find?_cons_of_neg _ (by simp [h0]),
              List.find?_cons_of_neg _ (by simp [h1]),
              List.find?_cons_of_neg _ (by simp [h2]),
              List.find?_cons_of_neg _ (by simp [h3]),
              List.find?_cons_of_pos _ (by simp [hfound])]
        simp only [rotateAction, hf]
        rw [if_neg hO]

lemma lockAndSpawn_over (s : GState) (p : Piece) (ch : SpawnChoice) :
    (lockAndSpawn s p ch).over = (spawnCollides s p ch || s.over) := by
  simp only [lockAndSpawn, spawnCollides]
  split
  · rename_i h
    rw [h]
    rfl
  · rename_i h
    rw [Bool.not_eq_true] at h
    rw [h]
    rfl

lemma lockStep_over (s : GState) (p : Piece) (ch : SpawnChoice) :
    (lockStep s p ch).over = (lockAndSpawn s p ch).over := by
  simp only [lockStep]
  split
  · rfl
  · exact (awardLightning_fields _).2.2.1

lemma moveLeft_over (s : GState) : (moveLeft s).over = s.over := by
  simp only [moveLeft]
  split <;> rfl

lemma moveRight_over (s : GState) : (moveRight s).over = s.over := by
  simp only [moveRight]
  split <;> rfl

lemma rotateAction_over (s : GState) : (rotateAction s).over = s.over := by
  simp only [rotateAction]
  split
  · rfl
  · split <;> rfl

lemma spawnCollides_lockAndSpawn (s : GState) (p : Piece) (ch : SpawnChoice)
    (hc : spawnCollides s p ch = true) :
    (lockAndSpawn s p ch).board = (clearLines (merge s.board p)).1
  ∧ (lockAndSpawn s p ch).piece = s.piece
  ∧ (lockAndSpawn s p ch).over = true
  ∧ (lockAndSpawn s p ch).high = updateHighScore
      (if (clearLines (merge s.board p)).2 ≠ 0 then
        updateHighScore s.high (s.score + ((clearLines (merge s.board p)).2 : Int))
      else s.high) s.score
  ∧ (lockAndSpawn s p ch).score = (if (clearLines (merge s.board p)).2 ≠ 0 then
        s.score + ((clearLines (merge s.board p)).2 : Int) else s.score) := by
  simp only [spawnCollides] at hc
  simp only [lockAndSpawn]
  split
  · exact ⟨rfl, rfl, rfl, rfl, rfl⟩
  · rename_i hng
    exact absurd hc hng

lemma lockStep_of_spawnCollides (s : GState) (p : Piece) (ch : SpawnChoice)
    (hc : spawnCollides s p ch = true) :
    lockStep s p ch = lockAndSpawn s p ch := by
  simp only [lockStep]
  split
  · rfl
  · rename_i hid
    exact absurd (by rw [(spawnCollides_lockAndSpawn s p ch hc).2.1]) hid

/-- C6: the status goes from running to over exactly when, inside
lock-and-spawn, the freshly spawned piece collides with the post-clear board
— in which case the post-clear board is kept, the new piece is not installed,
and the best score is raised from the pre-bonus score — and goes from over to
running only via explicit restart; no other action changes the status
(moves/rotations preserve it, the over-gated actions are no-ops when over,
and the un-gated button hard drop can only keep or set the over flag). -/
theorem C6_status_transitions :
    (∀ s : GState, (applyAct .left s).over = s.over)
  ∧ (∀ s : GState, (applyAct .right s).over = s.over)
  ∧ (∀ s : GState, (applyAct .rot s).over = s.over)
  ∧ (∀ s : GState, (applyAct .btnLeft s).over = s.over)
  ∧ (∀ s : GState, (applyAct .btnRight s).over = s.over)
  ∧ (∀ s : GState, (applyAct .btnRot s).over = s.over)
  ∧ (∀ (s : GState) (ch : SpawnChoice), (applyAct (.restart ch) s).over = false)
  ∧ (∀ (s : GState) (p : Piece) (ch : SpawnChoice),
      (lockAndSpawn s p ch).over = (spawnCollides s p ch || s.over))
  ∧ (∀ (s : GState) (ch : SpawnChoice), s.over = false →
      (applyAct (.soft ch) s).over
        = (collides s.board s.piece 1 0 none && spawnCollides s s.piece ch))
  ∧ (∀ (s : GState) (ch : SpawnChoice), s.over = false →
      (applyAct (.tick ch) s).over
        = (collides s.board s.piece 1 0 none && spawnCollides s s.piece ch))
  ∧ (∀ (s : GState) (ch : SpawnChoice), s.over = false →
      (applyAct (.hard ch) s).over = spawnCollides s
        { s.piece with row := s.piece.row + (dropDist s.board s.piece : Int) } ch)
  ∧ (∀ (s : GState) (ch : SpawnChoice), (applyAct (.btnHard ch) s).over
        = (spawnCollides s
            { s.piece with row := s.piece.row + (dropDist s.board s.piece : Int) } ch
           || s.over))
  ∧ (∀ (s : GState) (ch : SpawnChoice), s.over = true →
      applyAct .left s = s ∧ applyAct .right s = s ∧ applyAct .rot s = s
    ∧ applyAct (.soft ch) s = s ∧ applyAct (.tick ch) s = s
    ∧ applyAct (.hard ch) s = s)
  ∧ (∀ (s : GState) (p : Piece) (ch : SpawnChoice), spawnCollides s p ch = true →
      (lockStep s p ch).board = (clearLines (merge s.board p)).1
    ∧ (lockStep s p ch).piece = s.piece
    ∧ (lockStep s p ch).over = true
    ∧ (lockStep s p ch).high = updateHighScore
        (if (clearLines (merge s.board p)).2 ≠ 0 then
          updateHighScore s.high
            (s.score + ((clearLines (merge s.board p)).2 : Int))
        else s.high) s.score) := by
  refine ⟨?_, ?_, ?_, ?_, ?_, ?_, ?_, ?_, ?_, ?_, ?_, ?_, ?_, ?_⟩
  · intro s
    simp only [applyAct]
    split
    · rfl
    · exact moveLeft_over s
  · intro s
    simp only [applyAct]
    split
    · rfl
    · exact moveRight_over s
  · intro s
    simp only [applyAct]
    split
    · rfl
    · exact rotateAction_over s
  · intro s
    exact moveLeft_over s
  · intro s
    exact moveRight_over s
  · intro s
    exact rotateAction_over s
  · intro s ch
    simp only [applyAct, resetGame]
    rw [(awardLightning_fields _).2.2.1]
  · exact lockAndSpawn_over
  · intro s ch hov
    simp only [applyAct, hov]
    rw [if_neg (by simp [hov])]
    simp only [softDropStep]
    split
    · rename_i hc
      rw [Bool.not_eq_true'] at hc
      simp [hc, hov]
    · rename_i hc
      have hc2 : collides s.board s.piece 1 0 none = true := by simpa using hc
      rw [lockStep_over, lockAndSpawn_over, hov, hc2]
      simp
  · intro s ch hov
    simp only [applyAct, hov]
    rw [if_neg (by simp [hov])]
    simp only [softDropStep]
    split
    · rename_i hc
      rw [Bool.not_eq_true'] at hc
      simp [hc, hov]
    · rename_i hc
      have hc2 : collides s.board s.piece 1 0 none = true := by simpa using hc
      rw [lockStep_over, lockAndSpawn_over, hov, hc2]
      simp
  · intro s ch hov
    simp only [applyAct]
    rw [if_neg (by simp [hov])]
    simp only [hardDrop]
    rw [lockStep_over, lockAndSpawn_over, hov]
    simp
  · intro s ch
    simp only [applyAct, hardDrop]
    rw [lockStep_over, lockAndSpawn_over]
  · intro s ch hov
    refine ⟨?_, ?_, ?_, ?_, ?_, ?_⟩ <;> simp [applyAct, hov]
  · intro s p ch hc
    rw [lockStep_of_spawnCollides s p ch hc]
    have h := spawnCollides_lockAndSpawn s p ch hc
    exact ⟨h.1, h.2.1, h.2.2.1, h.2.2.2.1⟩

lemma updateHighScore_eq_max (a b : Int) : updateHighScore a b = max a b := by
  unfold updateHighScore
  split <;> omega

lemma lockAndSpawn_score (s : GState) (p : Piece) (ch : SpawnChoice) :
    (lockAndSpawn s p ch).score
      = s.score + ((clearLines (merge s.board p)).2 : Int) := by
  simp only [lockAndSpawn]
  split <;> split <;> rename_i hn
  · rfl
  · have h : (clearLines (merge s.board p)).2 = 0 := by omega
    simp [h]
  · rfl
  · have h : (clearLines (merge s.board p)).2 = 0 := by omega
    simp [h]

lemma lockAndSpawn_high_max (s : GState) (p : Piece) (ch : SpawnChoice)
    (hsh : s.score ≤ s.high) :
    (lockAndSpawn s p ch).high = max s.high (lockAndSpawn s p ch).score := by
  have hsc := lockAndSpawn_score s p ch
  rw [hsc]
  simp only [lockAndSpawn]
  split <;> split <;> rename_i hn
  · simp only [updateHighScore_eq_max]
    have : (0:Int) ≤ ((clearLines (merge s.board p)).2 : Int) := by positivity
    omega
  · have h : (clearLines (merge s.board p)).2 = 0 := by omega
    simp only [updateHighScore_eq_max, h]
    simp
    try omega
  · simp only [updateHighScore_eq_max]
  · have h : (clearLines (merge s.board p)).2 = 0 := by omega
    simp [h]
    omega

/-- C7: a lock that clears `n` rows adds exactly `n` points (no multi-line
multiplier), raising the best score to the new score when it is exceeded, and
a lock that clears no rows adds no line points. -/
theorem C7_scoring (s : GState) (p : Piece) (ch : SpawnChoice) :
    (lockAndSpawn s p ch).score
      = s.score + ((clearLines (merge s.board p)).2 : Int)
  ∧ (0 < (clearLines (merge s.board p)).2 →
      (lockAndSpawn s p ch).high
        = max s.high (s.score + ((clearLines (merge s.board p)).2 : Int)))
  ∧ ((clearLines (merge s.board p)).2 = 0 →
      (lockAndSpawn s p ch).score = s.score) := by
  refine ⟨lockAndSpawn_score s p ch, ?_, ?_⟩
  · intro hpos
    have hne : (clearLines (merge s.board p)).2 ≠ 0 := by omega
    have hcast : (0:Int) ≤ ((clearLines (merge s.board p)).2 : Int) := by
      positivity
    simp only [lockAndSpawn]
    split
    · simp only [if_pos hne, updateHighScore_eq_max]
      omega
    · simp only [if_pos hne, updateHighScore_eq_max]
  · intro h
    rw [lockAndSpawn_score s p ch, h]
    simp

lemma awardLightning_of_eq (s : GState) (h : (s.piece.id : Int) = s.awarded) :
    awardLightning s = s := by
  unfold awardLightning
  rw [if_pos h]

lemma awardLightning_add5 (s : GState)
    (hl : hasLightningInIcons s.piece.icons = true)
    (hne : (s.piece.id : Int) ≠ s.awarded) :
    (awardLightning s).score = s.score + 5
  ∧ (awardLightning s).awarded = (s.piece.id : Int)
  ∧ (awardLightning s).high = updateHighScore s.high (s.score + 5) := by
  unfold awardLightning
  rw [if_neg hne, if_pos hl]
  exact ⟨rfl, rfl, rfl⟩

lemma awardLightning_idem (s : GState) :
    awardLightning (awardLightning s) = awardLightning s := by
  by_cases h : (s.piece.id : Int) = s.awarded
  · rw [awardLightning_of_eq s h]
    exact awardLightning_of_eq s h
  · apply awardLightning_of_eq
    simp only [awardLightning, if_neg h]
    split <;> rfl

lemma rotateAction_id (s : GState) : (rotateAction s).piece.id = s.piece.id := by
  simp only [rotateAction]
  split
  · rfl
  · split <;> rfl

lemma spawnCollides_lock_idfields (s : GState) (p : Piece) (ch : SpawnChoice)
    (hc : spawnCollides s p ch = true) :
    (lockAndSpawn s p ch).piece = s.piece
  ∧ (lockAndSpawn s p ch).awarded = s.awarded := by
  simp only [spawnCollides] at hc
  simp only [lockAndSpawn]
  split
  · exact ⟨rfl, rfl⟩
  · rename_i hng
    exact absurd hc hng

lemma lockStep_of_spawnCollides_v (s : GState) (p : Piece) (ch : SpawnChoice)
    (hc : spawnCollides s p ch = true) :
    lockStep s p ch = lockAndSpawn s p ch := by
  simp only [lockStep]
  split
  · rfl
  · rename_i hid
    exact absurd (by rw [(spawnCollides_lock_idfields s p ch hc).1]) hid

/-- C8: a newly active piece whose icons contain the lightning icon is
credited exactly +5, recording its identifier; re-evaluating the same piece
is a no-op (idempotence, comparison by the last credited identifier);
rotation preserves the identifier; and a piece whose spawn collides is never
installed nor awarded (the lock score is exactly the line points). -/
theorem C8_lightning :
    (∀ s : GState, hasLightningInIcons s.piece.icons = true →
        (s.piece.id : Int) ≠ s.awarded →
        (awardLightning s).score = s.score + 5
      ∧ (awardLightning s).awarded = (s.piece.id : Int)
      ∧ (awardLightning s).high = updateHighScore s.high (s.score + 5))
  ∧ (∀ s : GState, awardLightning (awardLightning s) = awardLightning s)
  ∧ (∀ s : GState, (s.piece.id : Int) = s.awarded → awardLightning s = s)
  ∧ (∀ s : GState, (rotateAction s).piece.id = s.piece.id)
  ∧ (∀ (s : GState) (p : Piece) (ch : SpawnChoice), spawnCollides s p ch = true →
        (lockStep s p ch).score
          = s.score + ((clearLines (merge s.board p)).2 : Int)
      ∧ (lockStep s p ch).piece = s.piece
      ∧ (lockStep s p ch).awarded = s.awarded) := by
  refine ⟨awardLightning_add5, awardLightning_idem, awardLightning_of_eq,
    rotateAction_id, ?_⟩
  intro s p ch hc
  rw [lockStep_of_spawnCollides_v s p ch hc]
  exact ⟨lockAndSpawn_score s p ch, (spawnCollides_lock_idfields s p ch hc).1,
    (spawnCollides_lock_idfields s p ch hc).2⟩


/-- Witness for C2: the initial O piece state, where rotation is a no-op. -/
theorem C2_rotate_spec_witness :
    ((initState 0 ⟨ShapeKey.O, fun _ _ => "★"⟩).over = false
      ∧ (initState 0 ⟨ShapeKey.O, fun _ _ => "★"⟩).piece.key = "O")
  ∧ rotateAction (initState 0 ⟨ShapeKey.O, fun _ _ => "★"⟩)
      = initState 0 ⟨ShapeKey.O, fun _ _ => "★"⟩ :=
  ⟨⟨by decide, by decide⟩,
    (C2_rotate_spec _ (by decide)).1 (by decide)⟩

/-- Witness for C6 at the initial I-piece state. -/
theorem C6_status_transitions_witness :
    ((initState 0 ⟨ShapeKey.I, fun _ _ => "★"⟩).over = false)
  ∧ (applyAct (Act.soft ⟨ShapeKey.I, fun _ _ => "★"⟩)
        (initState 0 ⟨ShapeKey.I, fun _ _ => "★"⟩)).over
      = (collides (initState 0 ⟨ShapeKey.I, fun _ _ => "★"⟩).board
           (initState 0 ⟨ShapeKey.I, fun _ _ => "★"⟩).piece 1 0 none
         && spawnCollides (initState 0 ⟨ShapeKey.I, fun _ _ => "★"⟩)
              (initState 0 ⟨ShapeKey.I, fun _ _ => "★"⟩).piece
              ⟨ShapeKey.I, fun _ _ => "★"⟩) :=
  ⟨by decide, C6_status_transitions.2.2.2.2.2.2.2.2.1 _ _ (by decide)⟩

/-- Witness for C7 at a lock that completes the bottom row. -/
theorem C7_scoring_witness :
    0 < (clearLines (merge witRowState.board witRowPiece)).2
  ∧ (lockAndSpawn witRowState witRowPiece chDef).high
      = max witRowState.high (witRowState.score
          + ((clearLines (merge witRowState.board witRowPiece)).2 : Int)) :=
  ⟨by decide, (C7_scoring witRowState witRowPiece chDef).2.1 (by decide)⟩

/-- Witness for C8 at a lightning-carrying piece not yet credited. -/
theorem C8_lightning_witness :
    (hasLightningInIcons witLightState.piece.icons = true
      ∧ (witLightState.piece.id : Int) ≠ witLightState.awarded)
  ∧ (awardLightning witLightState).score = witLightState.score + 5 :=
  ⟨⟨by decide, by decide⟩,
    (C8_lightning.1 witLightState (by decide) (by decide)).1⟩

lemma colsOf_rotateCW (d : α) (m : List (List α)) (h : 0 < colsOf m) :
    colsOf (rotateCW d m) = m.length := by
  have hhead : ∀ (l : List (List α)), l.headD [] = l.getD 0 [] := by
    intro l; cases l <;> rfl
  show ((rotateCW d m).headD []).length = m.length
  rw [hhead, rotateCW, getD_range_map _ h, List.length_map, List.length_range]

lemma countSet_rotateCW (m : Mat) : countSet (rotateMatrixCW m) = countSet m := by
  by_cases hC : colsOf m = 0
  · unfold countSet
    rw [rotateMatrixCW, rotateCW_length, hC]
    simp [hC]
  · have hC' : 0 < colsOf m := Nat.pos_of_ne_zero hC
    unfold countSet
    rw [rotateMatrixCW, rotateCW_length, colsOf_rotateCW false m hC']
    have hentry : ∀ i ∈ Finset.range (colsOf m),
        (∑ j ∈ Finset.range m.length,
          if ((rotateCW false m).getD i []).getD j false then 1 else 0)
        = ∑ j ∈ Finset.range m.length,
            if (m.getD (m.length - 1 - j) []).getD i false then 1 else 0 := by
      intro i hi
      refine Finset.sum_congr rfl fun j hj => ?_
      rw [rotateCW_getD false m (Finset.mem_range.mp hi) (Finset.mem_range.mp hj)]
    rw [Finset.sum_congr rfl hentry]
    have h2 : ∀ i : Nat,
        (∑ j ∈ Finset.range m.length,
          if (m.getD (m.length - 1 - j) []).getD i false then 1 else 0)
        = ∑ j ∈ Finset.range m.length,
            if (m.getD j []).getD i false then 1 else 0 := fun i =>
      Finset.sum_range_reflect (fun j => if (m.getD j []).getD i false then 1 else 0)
        m.length
    rw [Finset.sum_congr rfl fun i _ => h2 i]
    exact Finset.sum_comm

lemma collides_far (b : Board) (p : Piece) (hrow : 0 ≤ p.row)
    (hset : hasSetCell p.matrix = true) (e : Int) (he : (ROWS : Int) ≤ e) :
    collides b p e 0 none = true := by
  unfold hasSetCell at hset
  rw [List.any_eq_true] at hset
  obtain ⟨r, hr, hset⟩ := hset
  rw [List.any_eq_true] at hset
  obtain ⟨c, hc, hbit⟩ := hset
  unfold collides
  simp only [Option.getD_none]
  rw [List.any_eq_true]
  refine ⟨r, hr, ?_⟩
  rw [List.any_eq_true]
  refine ⟨c, hc, ?_⟩
  rw [hbit, Bool.true_and]
  have h2 : (ROWS : Int) ≤ p.row + (r : Int) + e := by
    have : (0:Int) ≤ (r : Int) := by positivity
    omega
  simp [h2]

lemma dropDistFuel_congr (b : Board) (p : Piece) : ∀ (k fuel fuel' d : Nat),
    collides b p ((d : Int) + (k : Int) + 1) 0 none = true → k < fuel → k < fuel' →
    dropDistFuel b p fuel d = dropDistFuel b p fuel' d := by
  intro k
  induction k with
  | zero =>
      intro fuel fuel' d hcol hf hf'
      cases fuel with
      | zero => omega
      | succ f =>
        cases fuel' with
        | zero => omega
        | succ f' =>
          have h1 : collides b p ((d : Int) + 1) 0 none = true := by
            have : (d : Int) + (0 : Nat) + 1 = (d : Int) + 1 := by push_cast; ring
            rwa [this] at hcol
          simp only [dropDistFuel, h1]
          rfl
  | succ k ih =>
      intro fuel fuel' d hcol hf hf'
      cases fuel with
      | zero => omega
      | succ f =>
        cases fuel' with
        | zero => omega
        | succ f' =>
          simp only [dropDistFuel]
          by_cases hc : collides b p ((d : Int) + 1) 0 none = true
          · simp [hc]
          · have hc' : collides b p ((d : Int) + 1) 0 none = false := by
              simpa using hc
            simp only [hc', Bool.false_eq_true, if_false]
            apply ih f f' (d + 1) _ (by omega) (by omega)
            have heq : ((d + 1 : Nat) : Int) + (k : Int) + 1
                = (d : Int) + ((k + 1 : Nat) : Int) + 1 := by push_cast; ring
            rw [heq]
            exact hcol

lemma dropDistFuel_le (b : Board) (p : Piece) : ∀ (k fuel d : Nat),
    collides b p ((d : Int) + (k : Int) + 1) 0 none = true → k < fuel →
    dropDistFuel b p fuel d ≤ d + k := by
  intro k
  induction k with
  | zero =>
      intro fuel d hcol hf
      cases fuel with
      | zero => omega
      | succ f =>
        have h1 : collides b p ((d : Int) + 1) 0 none = true := by
          have : (d : Int) + (0 : Nat) + 1 = (d : Int) + 1 := by push_cast; ring
          rwa [this] at hcol
        simp only [dropDistFuel, h1, if_true]
        omega
  | succ k ih =>
      intro fuel d hcol hf
      cases fuel with
      | zero => omega
      | succ f =>
        simp only [dropDistFuel]
        by_cases hc : collides b p ((d : Int) + 1) 0 none = true
        · simp only [hc, if_true]
          omega
        · have hc' : collides b p ((d : Int) + 1) 0 none = false := by
            simpa using hc
          simp only [hc', Bool.false_eq_true, if_false]
          have hrec := ih f (d + 1) (by
            have heq : ((d + 1 : Nat) : Int) + (k : Int) + 1
                = (d : Int) + ((k + 1 : Nat) : Int) + 1 := by push_cast; ring
            rw [heq]
            exact hcol) (by omega)
          omega

lemma dropDistFuel_spec (b : Board) (p : Piece) : ∀ (fuel d : Nat),
    collides b p ((d : Int) + (fuel : Int)) 0 none = true →
    collides b p (d : Int) 0 none = false →
    collides b p ((dropDistFuel b p fuel d : Int)) 0 none = false
  ∧ collides b p ((dropDistFuel b p fuel d : Int) + 1) 0 none = true := by
  intro fuel
  induction fuel with
  | zero =>
      intro d hcol hent
      have : (d : Int) + (0 : Nat) = (d : Int) := by push_cast; ring
      rw [this] at hcol
      exact absurd hcol (by simp [hent])
  | succ f ih =>
      intro d hcol hent
      simp only [dropDistFuel]
      by_cases hc : collides b p ((d : Int) + 1) 0 none = true
      · simp only [if_pos hc]
        exact ⟨hent, hc⟩
      · have hc' : collides b p ((d : Int) + 1) 0 none = false := by
          simpa using hc
        simp only [hc', Bool.false_eq_true, if_false]
        apply ih (d + 1)
        · have : ((d + 1 : Nat) : Int) + (f : Int) = (d : Int) + ((f + 1 : Nat) : Int) := by
            push_cast; ring
          rw [this]
          exact hcol
        · have : ((d + 1 : Nat) : Int) = (d : Int) + 1 := by push_cast; ring
          rw [this]
          exact hc'

lemma dropDistFuel_min (b : Board) (p : Piece) : ∀ (fuel d j : Nat),
    d ≤ j → j < dropDistFuel b p fuel d →
    collides b p ((j : Int) + 1) 0 none = false := by
  intro fuel
  induction fuel with
  | zero =>
      intro d j hdj hj
      simp only [dropDistFuel] at hj
      omega
  | succ f ih =>
      intro d j hdj hj
      simp only [dropDistFuel] at hj
      by_cases hc : collides b p ((d : Int) + 1) 0 none = true
      · rw [if_pos hc] at hj
        omega
      · have hc' : collides b p ((d : Int) + 1) 0 none = false := by
          simpa using hc
        rw [if_neg hc] at hj
        rcases Nat.eq_or_lt_of_le hdj with rfl | hlt
        · rwa [show ((d : Nat) : Int) + 1 = (d : Int) + 1 from rfl]
        · exact ih (d + 1) j (by omega) hj

/-- C10: every shape template has a set cell; clockwise rotation preserves
the number of set cells; a piece at a non-negative row with a set cell
collides at any row offset of `ROWS` or more (the bottom boundary), so the
hard-drop descent loop exits: its result is at most `ROWS`, the collision
test at the result plus one is true whenever the piece currently fits, and
any fuel of at least `ROWS + 1` computes the identical offset. -/
theorem C10_hardDrop_terminates :
    (∀ k : ShapeKey, hasSetCell (shapeMatrix k) = true)
  ∧ (∀ m : Mat, countSet (rotateMatrixCW m) = countSet m)
  ∧ (∀ (b : Board) (p : Piece) (e : Int), 0 ≤ p.row →
      hasSetCell p.matrix = true → (ROWS : Int) ≤ e →
      collides b p e 0 none = true)
  ∧ (∀ (b : Board) (p : Piece), 0 ≤ p.row → hasSetCell p.matrix = true →
        dropDist b p ≤ ROWS
      ∧ (∀ fuel, ROWS + 1 ≤ fuel → dropDistFuel b p fuel 0 = dropDist b p)
      ∧ (collides b p 0 0 none = false →
          collides b p ((dropDist b p : Int) + 1) 0 none = true)) := by
  refine ⟨?_, countSet_rotateCW, ?_, ?_⟩
  · intro k
    cases k <;> decide
  · intro b p e hrow hset he
    exact collides_far b p hrow hset e he
  · intro b p hrow hset
    have hfar : collides b p ((0 : Int) + (ROWS : Int) + 1) 0 none = true := by
      apply collides_far b p hrow hset
      simp [ROWS]
    refine ⟨?_, ?_, ?_⟩
    · have := dropDistFuel_le b p ROWS (ROWS + 1) 0 (by
        rwa [show ((0 : Nat) : Int) + (ROWS : Int) + 1
          = (0 : Int) + (ROWS : Int) + 1 from by push_cast; ring]) (by omega)
      simpa [dropDist] using this
    · intro fuel hfuel
      unfold dropDist
      exact dropDistFuel_congr b p ROWS fuel (ROWS + 1) 0 (by
        rwa [show ((0 : Nat) : Int) + (ROWS : Int) + 1
          = (0 : Int) + (ROWS : Int) + 1 from by push_cast; ring]) (by omega) (by omega)
    · intro hent
      have hfar2 : collides b p ((0 : Int) + ((ROWS + 1 : Nat) : Int)) 0 none = true := by
        apply collides_far b p hrow hset
        push_cast
        omega
      exact (dropDistFuel_spec b p (ROWS + 1) 0 (by simpa using hfar2)
        (by simpa using hent)).2

/-- C5 (amended): for a running state whose active piece currently fits, sits
at a non-negative row, and has a set cell, hard-drop computes the LEAST
offset d ≥ 0 such that the piece at row+d does not collide while the piece at
row+d+1 does — the first resting position reached descending from the current
row, which need not be the unique nor the lowest such offset when the board
has covered holes — and always triggers lock-and-spawn with the piece placed
at row+d. -/
theorem C5_hardDrop_amended (s : GState) (ch : SpawnChoice)
    (hrun : s.over = false)
    (hfit : collides s.board s.piece 0 0 none = false)
    (hrow : 0 ≤ s.piece.row) (hset : hasSetCell s.piece.matrix = true) :
    collides s.board s.piece ((dropDist s.board s.piece : Int)) 0 none = false
  ∧ collides s.board s.piece ((dropDist s.board s.piece : Int) + 1) 0 none
      = true
  ∧ (∀ j : Nat, j < dropDist s.board s.piece →
      collides s.board s.piece ((j : Int) + 1) 0 none = false)
  ∧ applyAct (.hard ch) s = lockStep s
      { s.piece with row := s.piece.row + (dropDist s.board s.piece : Int) }
      ch := by
  have hfar : collides s.board s.piece
      (((0 : Nat) : Int) + ((ROWS + 1 : Nat) : Int)) 0 none = true := by
    apply collides_far _ _ hrow hset
    push_cast
    omega
  have hspec := dropDistFuel_spec s.board s.piece (ROWS + 1) 0 hfar
    (by simpa using hfit)
  refine ⟨hspec.1, hspec.2, ?_, ?_⟩
  · intro j hj
    exact dropDistFuel_min s.board s.piece (ROWS + 1) 0 j (by omega) hj
  · simp only [applyAct]
    rw [if_neg (by simp [hrun])]
    simp only [hardDrop]

/-- C5 counterexample: a reachable running state (explicit input trace, three
locked Z pieces and a vertical I against the left wall) in which two distinct
offsets, 10 and 16, both satisfy "the piece at row+d does not collide and at
row+d+1 does", refuting the claimed uniqueness; the code's descent loop
returns the smaller offset 10 — the piece rests on top of the overhang — not
the lowest legal resting row at offset 16. -/
theorem C5_hardDrop_cex :
    Reachable 0 caveState
  ∧ caveState.over = false
  ∧ collides caveState.board caveState.piece 0 0 none = false
  ∧ collides caveState.board caveState.piece 10 0 none = false
  ∧ collides caveState.board caveState.piece 11 0 none = true
  ∧ collides caveState.board caveState.piece 16 0 none = false
  ∧ collides caveState.board caveState.piece 17 0 none = true
  ∧ dropDist caveState.board caveState.piece = 10 := by
  refine ⟨?_, by decide, by decide, by decide, by decide, by decide,
    by decide, by decide⟩
  exact Reachable.step _ _ (Reachable.step _ _ (Reachable.step _ _
    (Reachable.step _ _ (Reachable.step _ _ (Reachable.step _ _
      (Reachable.step _ _ (Reachable.step _ _ (Reachable.step _ _
        (Reachable.step _ _ (Reachable.step _ _ (Reachable.init chZ)))))))))))

lemma awardLightning_score_high (t : GState) (H : Int) (h0t : 0 ≤ t.score)
    (hmax : t.high = max H t.score) :
    0 ≤ (awardLightning t).score
  ∧ (awardLightning t).high = max H ((awardLightning t).score) := by
  unfold awardLightning
  split
  · exact ⟨h0t, hmax⟩
  · split
    · constructor
      · show 0 ≤ t.score + 5
        omega
      · show updateHighScore t.high (t.score + 5) = max H (t.score + 5)
        rw [updateHighScore_eq_max, hmax]
        omega
    · exact ⟨h0t, hmax⟩

lemma lockStep_score_high (s : GState) (p : Piece) (ch : SpawnChoice)
    (h0s : 0 ≤ s.score) (hsh : s.score ≤ s.high) :
    0 ≤ (lockStep s p ch).score
  ∧ (lockStep s p ch).high = max s.high ((lockStep s p ch).score) := by
  have hsc := lockAndSpawn_score s p ch
  have hH := lockAndSpawn_high_max s p ch hsh
  have h0' : 0 ≤ (lockAndSpawn s p ch).score := by
    rw [hsc]
    have := Int.natCast_nonneg ((clearLines (merge s.board p)).2)
    omega
  simp only [lockStep]
  split
  · exact ⟨h0', hH⟩
  · exact awardLightning_score_high _ s.high h0' hH

lemma moveLeft_sh (s : GState) :
    (moveLeft s).score = s.score ∧ (moveLeft s).high = s.high := by
  simp only [moveLeft]
  split <;> exact ⟨rfl, rfl⟩

lemma moveRight_sh (s : GState) :
    (moveRight s).score = s.score ∧ (moveRight s).high = s.high := by
  simp only [moveRight]
  split <;> exact ⟨rfl, rfl⟩

lemma rotateAction_sh (s : GState) :
    (rotateAction s).score = s.score ∧ (rotateAction s).high = s.high := by
  simp only [rotateAction]
  split
  · exact ⟨rfl, rfl⟩
  · split <;> exact ⟨rfl, rfl⟩

lemma act_score_high (s : GState) (a : Act) (h0s : 0 ≤ s.score)
    (hsh : s.score ≤ s.high) (hh : 0 ≤ s.high) :
    0 ≤ (applyAct a s).score
  ∧ (applyAct a s).high = max s.high ((applyAct a s).score) := by
  have hid : 0 ≤ s.score ∧ s.high = max s.high s.score := ⟨h0s, by omega⟩
  cases a with
  | left =>
      simp only [applyAct]
      split
      · exact hid
      · rw [(moveLeft_sh s).1, (moveLeft_sh s).2]
        exact hid
  | right =>
      simp only [applyAct]
      split
      · exact hid
      · rw [(moveRight_sh s).1, (moveRight_sh s).2]
        exact hid
  | rot =>
      simp only [applyAct]
      split
      · exact hid
      · rw [(rotateAction_sh s).1, (rotateAction_sh s).2]
        exact hid
  | btnLeft =>
      simp only [applyAct]
      rw [(moveLeft_sh s).1, (moveLeft_sh s).2]
      exact hid
  | btnRight =>
      simp only [applyAct]
      rw [(moveRight_sh s).1, (moveRight_sh s).2]
      exact hid
  | btnRot =>
      simp only [applyAct]
      rw [(rotateAction_sh s).1, (rotateAction_sh s).2]
      exact hid
  | soft ch =>
      simp only [applyAct]
      split
      · exact hid
      · simp only [softDropStep]
        split
        · exact hid
        · exact lockStep_score_high s s.piece ch h0s hsh
  | tick ch =>
      simp only [applyAct]
      split
      · exact hid
      · simp only [softDropStep]
        split
        · exact hid
        · exact lockStep_score_high s s.piece ch h0s hsh
  | hard ch =>
      simp only [applyAct]
      split
      · exact hid
      · simp only [hardDrop]
        exact lockStep_score_high s _ ch h0s hsh
  | btnHard ch =>
      simp only [applyAct, hardDrop]
      exact lockStep_score_high s _ ch h0s hsh
  | restart ch =>
      simp only [applyAct, resetGame]
      exact awardLightning_score_high _ s.high (by show (0:Int) ≤ 0; omega) (by show s.high = max s.high 0; omega)

lemma initState_score_high (h0 : Int) (ch : SpawnChoice) (hh0 : 0 ≤ h0) :
    0 ≤ (initState h0 ch).score
  ∧ (initState h0 ch).high = max h0 ((initState h0 ch).score) := by
  simp only [initState]
  exact awardLightning_score_high _ h0 (by show (0:Int) ≤ 0; omega) (by show h0 = max h0 0; omega)

lemma reachable_bounds (h0 : Int) (s : GState) (hh0 : 0 ≤ h0)
    (hr : Reachable h0 s) : 0 ≤ s.score ∧ s.score ≤ s.high ∧ h0 ≤ s.high := by
  induction hr with
  | init ch =>
      have h := initState_score_high h0 ch hh0
      refine ⟨h.1, ?_, ?_⟩ <;> omega
  | step s a hr ih =>
      have h := act_score_high s a ih.1 ih.2.1 (by omega)
      exact ⟨h.1, by omega, by omega⟩

/-- C9: loading the best score yields 0 when the persisted value is absent or
invalid and the stored integer otherwise (non-negative for every value the
program can have saved); and along every reachable execution with a loaded
best of `h0 ≥ 0`, the best is a non-negative integer that bounds the score,
bounds `h0`, and after every step equals the maximum of the previous best and
the new score — hence the maximum of the loaded best and every score value
reached since. -/
theorem C9_persistence :
    (loadBest .absent = 0 ∧ loadBest .invalid = 0)
  ∧ (∀ n : Int, 0 ≤ n → loadBest (.intVal n) = n ∧ 0 ≤ loadBest (.intVal n))
  ∧ (∀ (st : Stored) (s : GState), 0 ≤ loadBest st →
      Reachable (loadBest st) s →
      0 ≤ s.score ∧ s.score ≤ s.high ∧ loadBest st ≤ s.high ∧ 0 ≤ s.high)
  ∧ (∀ (h0 : Int) (ch : SpawnChoice), 0 ≤ h0 →
      (initState h0 ch).high = max h0 ((initState h0 ch).score))
  ∧ (∀ (h0 : Int) (s : GState) (a : Act), 0 ≤ h0 → Reachable h0 s →
      (applyAct a s).high = max s.high ((applyAct a s).score)) := by
  refine ⟨⟨rfl, rfl⟩, fun n hn => ⟨rfl, hn⟩, ?_, ?_, ?_⟩
  · intro st s h0 hr
    have h := reachable_bounds _ s h0 hr
    exact ⟨h.1, h.2.1, h.2.2, by omega⟩
  · intro h0 ch hh0
    exact (initState_score_high h0 ch hh0).2
  · intro h0 s a hh0 hr
    have hb := reachable_bounds h0 s hh0 hr
    exact (act_score_high s a hb.1 hb.2.1 (by omega)).2


/-- Witness for C5 (amended) at the initial O-piece state. -/
theorem C5_hardDrop_amended_witness :
    ((initState 0 chDef).over = false
      ∧ collides (initState 0 chDef).board (initState 0 chDef).piece 0 0 none
          = false
      ∧ 0 ≤ (initState 0 chDef).piece.row
      ∧ hasSetCell (initState 0 chDef).piece.matrix = true)
  ∧ collides (initState 0 chDef).board (initState 0 chDef).piece
      ((dropDist (initState 0 chDef).board (initState 0 chDef).piece : Int)
        + 1) 0 none = true :=
  ⟨⟨by decide, by decide, by decide, by decide⟩,
    (C5_hardDrop_amended (initState 0 chDef) chDef (by decide) (by decide)
      (by decide) (by decide)).2.1⟩

/-- Witness for C10 at the initial O-piece state. -/
theorem C10_hardDrop_terminates_witness :
    (0 ≤ (initState 0 chDef).piece.row
      ∧ hasSetCell (initState 0 chDef).piece.matrix = true)
  ∧ dropDist (initState 0 chDef).board (initState 0 chDef).piece ≤ ROWS :=
  ⟨⟨by decide, by decide⟩,
    (C10_hardDrop_terminates.2.2.2 (initState 0 chDef).board
      (initState 0 chDef).piece (by decide) (by decide)).1⟩

/-- Witness for C9 at an absent stored value and the initial state. -/
theorem C9_persistence_witness :
    (0 ≤ loadBest Stored.absent
      ∧ Reachable (loadBest Stored.absent)
          (initState (loadBest Stored.absent) chDef))
  ∧ 0 ≤ (initState (loadBest Stored.absent) chDef).score :=
  ⟨⟨by decide, Reachable.init chDef⟩,
    (C9_persistence.2.2.1 Stored.absent _ (by decide)
      (Reachable.init chDef)).1⟩

end Tetris
